import Mathlib

/-!
Verification of the range-aware streaming and chunked-upload subsystem of the
`streaming` repository (NestJS backend `video.service.ts`, frontend
`VideoUploadForm.tsx`).  JavaScript numbers that can be `NaN` are modelled as
`Option Int` (`none` = `NaN`); every comparison with `NaN` is `false`, and
arithmetic propagates `NaN`, exactly as in JavaScript.  Strings built by
template literals are modelled as `String.mk` of explicit character lists.
-/

set_option maxHeartbeats 1000000

namespace Streaming

/-- JavaScript addition on possibly-NaN integers. -/
def jsAdd : Option Int → Option Int → Option Int
  | some a, some b => some (a + b)
  | _, _ => none

/-- JavaScript subtraction on possibly-NaN integers. -/
def jsSub : Option Int → Option Int → Option Int
  | some a, some b => some (a - b)
  | _, _ => none

/-- JavaScript `x >= n` where `x` may be `NaN` and `n` is a known file size:
any comparison involving `NaN` is `false`. -/
def jsGeNat (a : Option Int) (n : Nat) : Bool :=
  match a with
  | some x => decide ((n : Int) ≤ x)
  | none => false

/-- JavaScript `a > b` where either side may be `NaN`. -/
def jsGt : Option Int → Option Int → Bool
  | some a, some b => decide (b < a)
  | _, _ => false

/-- The decimal digit character for `d < 10`. -/
def digitChar (d : Nat) : Char := Char.ofNat (48 + d)

/-- Fuel-driven decimal printer (most significant digit first). -/
def natToDecAux : Nat → Nat → List Char → List Char
  | 0, _, acc => acc
  | fuel + 1, n, acc =>
    if n < 10 then digitChar n :: acc
    else natToDecAux fuel (n / 10) (digitChar (n % 10) :: acc)

/-- Decimal representation of a natural number, as produced by a JavaScript
template literal for a non-negative integer. -/
def natToDec (n : Nat) : List Char := natToDecAux (n + 1) n []

/-- The characters a JavaScript template literal produces for a possibly-NaN
number: `NaN` prints as the string `NaN`. -/
def jsNumChars : Option Int → List Char
  | none => ['N', 'a', 'N']
  | some i => if i < 0 then '-' :: natToDec i.natAbs else natToDec i.toNat

/-- The maximal decimal-digit prefix of a character list, folded to a number;
fails (`NaN`) when the prefix is empty.  This is the digit-consuming core of
JavaScript `parseInt(s, 10)`. -/
def parseDigitList (cs : List Char) : Option Nat :=
  let ds := cs.takeWhile Char.isDigit
  if ds.isEmpty then none
  else some (ds.foldl (fun a c => a * 10 + (c.toNat - 48)) 0)

/-- Whitespace skipped by JavaScript `parseInt`. -/
def isJsSpace (c : Char) : Bool :=
  c == ' ' || c == '\t' || c == '\n' || c == '\r' || c == '\x0b' || c == '\x0c'

/-- JavaScript `parseInt(s, 10)`: skip whitespace, optional sign, then the
maximal digit prefix; `NaN` (`none`) when no digit follows. -/
def parseIntJS (cs : List Char) : Option Int :=
  match cs.dropWhile isJsSpace with
  | [] => none
  | c :: rest =>
    if c = '-' then (parseDigitList rest).map (fun n => -(n : Int))
    else if c = '+' then (parseDigitList rest).map (fun n => (n : Int))
    else (parseDigitList (c :: rest)).map (fun n => (n : Int))

/-- JavaScript `String.prototype.split` with a one-character separator. -/
def splitChar (sep : Char) : List Char → List (List Char)
  | [] => [[]]
  | c :: cs =>
    if c = sep then [] :: splitChar sep cs
    else
      match splitChar sep cs with
      | [] => [[c]]
      | p :: ps => (c :: p) :: ps

/-- JavaScript `range.replace(/bytes=/, '')`: removes the first occurrence of
the literal text `bytes=`. -/
def stripBytesEq : List Char → List Char
  | 'b' :: 'y' :: 't' :: 'e' :: 's' :: '=' :: rest => rest
  | c :: cs => c :: stripBytesEq cs
  | [] => []

/-- The backend's data directory (`join(process.cwd(), 'data')`); the working
directory is abstracted away. -/
def dataPath : String := "data"

/-- The `StreamInfo` record computed by `VideoService.getStreamInfo`
(`src/backend/src/video/video.service.ts`).  `start`, `end` and `chunksize`
are JavaScript numbers that may be `NaN` when the range header is garbage. -/
structure StreamInfo where
  filename : String
  videoPath : String
  fileSize : Nat
  isRangeRequest : Bool
  start : Option Int
  «end» : Option Int
  chunksize : Option Int
deriving DecidableEq, Repr

/-- The parts of `range.replace(/bytes=/, '').split('-')`. -/
def rangeParts (r : String) : List (List Char) :=
  splitChar '-' (stripBytesEq r.data)

/-- The effective second part of a range header: `parts[1]` when it exists and
is truthy (a JavaScript empty string is falsy), else nothing. -/
def rangeEndPart (r : String) : Option (List Char) :=
  match (rangeParts r).drop 1 with
  | [] => none
  | p :: _ => if p.isEmpty then none else some p

/-- `VideoService.getStreamInfo` (video.service.ts lines 346-376).  The
`statSync` call is abstracted into the `fileSize` argument. -/
def getStreamInfo (filename : String) (fileSize : Nat) (range : Option String) :
    StreamInfo :=
  match range with
  | none =>
    { filename := filename
      videoPath := dataPath ++ "/" ++ filename
      fileSize := fileSize
      isRangeRequest := false
      start := some 0
      «end» := some ((fileSize : Int) - 1)
      chunksize := some (fileSize : Int) }
  | some r =>
    let parts := rangeParts r
    let start := parseIntJS (parts.headD [])
    let endVal :=
      match rangeEndPart r with
      | some p => parseIntJS p
      | none => some ((fileSize : Int) - 1)
    { filename := filename
      videoPath := dataPath ++ "/" ++ filename
      fileSize := fileSize
      isRangeRequest := true
      start := start
      «end» := endVal
      chunksize := jsAdd (jsSub endVal start) (some 1) }

/-- The template literal
`Range <start>-<end> is not satisfiable for file size <fileSize>` from
`validateRangeRequest`. -/
def rangeErrorMsg (si : StreamInfo) : String :=
  String.mk ("Range ".data ++ jsNumChars si.start ++ '-' :: jsNumChars si.«end»
    ++ " is not satisfiable for file size ".data ++ natToDec si.fileSize)

/-- Result record of `validateRangeRequest`. -/
structure RangeValidation where
  valid : Bool
  error : Option String
deriving DecidableEq, Repr

/-- `VideoService.validateRangeRequest` (video.service.ts lines 378-396).
Every comparison follows JavaScript semantics: a `NaN` bound makes all three
comparisons false, so the request is treated as valid. -/
def validateRangeRequest (si : StreamInfo) : RangeValidation :=
  if si.isRangeRequest = false then { valid := true, error := none }
  else if jsGeNat si.start si.fileSize || jsGeNat si.«end» si.fileSize
      || jsGt si.start si.«end» then
    { valid := false, error := some (rangeErrorMsg si) }
  else { valid := true, error := none }

/-- The `Content-Range` header value
`bytes <start>-<end>/<fileSize>` from `setupStreamHeaders`. -/
def contentRangeValue (si : StreamInfo) : String :=
  String.mk ("bytes ".data ++ jsNumChars si.start ++ '-' :: jsNumChars si.«end»
    ++ '/' :: natToDec si.fileSize)

/-- `VideoService.setupStreamHeaders` (video.service.ts lines 398-433):
returns the status code passed to `res.writeHead` and the header list. -/
def setupStreamHeaders (si : StreamInfo) : Nat × List (String × String) :=
  if si.isRangeRequest then
    (206,
      [("Content-Range", contentRangeValue si),
       ("Accept-Ranges", "bytes"),
       ("Content-Length", String.mk (jsNumChars si.chunksize)),
       ("Content-Type", "video/mp4"),
       ("Cache-Control", "no-cache")])
  else
    (200,
      [("Content-Length", String.mk (natToDec si.fileSize)),
       ("Content-Type", "video/mp4"),
       ("Accept-Ranges", "bytes"),
       ("Cache-Control", "no-cache")])

/-- Looks a header up in an emitted header list. -/
def headerValue (hs : List (String × String)) (k : String) : Option String :=
  (hs.find? (fun p => p.1 == k)).map Prod.snd

/-- `VideoService.createVideoStream` (video.service.ts lines 435-449): the
bounded-read window handed to `createReadStream`; `none` means the whole file
is read (no `{start, end}` option). -/
def createVideoStream (si : StreamInfo) : Option (Option Int × Option Int) :=
  if si.isRangeRequest then some (si.start, si.«end») else none

/-- The inclusive byte window `[s, e]` of a file, as read by Node's
`createReadStream(path, { start, end })`. -/
def readWindow (file : List Nat) (s e : Nat) : List Nat :=
  (file.drop s).take (e + 1 - s)

/-- The bytes the bounded read of `createVideoStream` yields from a file. -/
def streamedBytes (file : List Nat) (si : StreamInfo) : List Nat :=
  match createVideoStream si with
  | some (some a, some b) => readWindow file a.toNat b.toNat
  | some _ => []
  | none => file

/-- One observable action on the Express `Response` object. -/
inductive ResAction where
  | writeHead (status : Nat) (headers : List (String × String))
  | body (chunk : List Nat)
  | json (status : Nat) (details : String)
  | resEnd
deriving DecidableEq, Repr

/-- How the piped file stream terminates: normal end, a read error
(file disappeared mid-stream, I/O error), or a client disconnect. -/
inductive StreamTermination where
  | success
  | ioError (message : String)
  | clientClose
deriving DecidableEq, Repr

/-- The `file.on('error', ...)` handler installed by `streamVideo`
(video.service.ts lines 528-539): a 500 JSON error when headers have not been
sent, otherwise `res.end()`. -/
def onStreamError (headersSent : Bool) : ResAction :=
  if headersSent then ResAction.resEnd
  else ResAction.json 500 "Streaming error"

/-- `VideoService.streamVideo` (video.service.ts lines 491-570), as the
sequence of response actions it performs.  `fileSize = none` models the
`statSync` throw for a missing file (caught and answered with 404).
`delivered` is the list of data chunks the read stream produced before it
terminated with `term`.  When the stream errors, `res.writeHead` has already
run (it is called synchronously before the stream is created), so the error
handler sees `headersSent = true`; a client disconnect destroys the source
stream without any further response action. -/
def streamVideo (filename : String) (fileSize : Option Nat)
    (range : Option String) (delivered : List (List Nat))
    (term : StreamTermination) : List ResAction :=
  match fileSize with
  | none => [ResAction.json 404 "Video not found"]
  | some fs =>
    let si := getStreamInfo filename fs range
    let v := validateRangeRequest si
    if v.valid = false then
      [ResAction.json 416 (v.error.getD "")]
    else
      let sh := setupStreamHeaders si
      ResAction.writeHead sh.1 sh.2 ::
        (delivered.map ResAction.body ++
          match term with
          | StreamTermination.success => []
          | StreamTermination.ioError _ => [onStreamError true]
          | StreamTermination.clientClose => [])

/-- Recognises a `writeHead` action. -/
def isWriteHead : ResAction → Bool
  | ResAction.writeHead _ _ => true
  | _ => false

/-- Recognises a body write. -/
def isBodyWrite : ResAction → Bool
  | ResAction.body _ => true
  | _ => false

/-- Recognises a JSON status response. -/
def isJsonAction : ResAction → Bool
  | ResAction.json _ _ => true
  | _ => false

/-- Number of `writeHead` actions in a response trace. -/
def countWriteHead (tr : List ResAction) : Nat :=
  (tr.filter isWriteHead).length

/-- The status code of the first response action, if any. -/
def firstStatus : List ResAction → Option Nat
  | ResAction.writeHead s _ :: _ => some s
  | ResAction.json s _ :: _ => some s
  | _ => none

/-- Status and headers are emitted exactly once, as the very first action of
the trace — in particular never after any body byte. -/
def headersOnceFirst (tr : List ResAction) : Prop :=
  countWriteHead tr = 1
  ∧ isWriteHead (tr.headD ResAction.resEnd) = true
  ∧ countWriteHead tr.tail = 0

/-- After a post-header failure the trace ends with `res.end()` and never
emits another status. -/
def terminatedWithoutNewStatus (tr : List ResAction) : Prop :=
  tr.getLast? = some ResAction.resEnd
  ∧ ∀ a ∈ tr, isJsonAction a = false

/-- A well-formed `Range: bytes=<s>-<e>` header value. -/
def mkRangeString (s e : Nat) : String :=
  String.mk (['b', 'y', 't', 'e', 's', '='] ++ natToDec s ++ '-' :: natToDec e)

/-- The `validateRangeRequest` error for concrete numeric bounds. -/
def rangeNotSatisfiableMsg (s e fs : Nat) : String :=
  String.mk ("Range ".data ++ natToDec s ++ '-' :: natToDec e
    ++ " is not satisfiable for file size ".data ++ natToDec fs)

/-- `windows` tile `[s, fs)` exactly: each window `[a, b]` (inclusive) starts
where the previous one ended plus one, and the last ends at `fs - 1`. -/
def tilesExactly (fs : Nat) : Nat → List (Nat × Nat) → Bool
  | s, [] => s == fs
  | s, (a, b) :: rest =>
    a == s && decide (s ≤ b) && decide (b < fs) && tilesExactly fs (b + 1) rest

/-- A multer in-memory upload (`Express.Multer.File`): the fields
`uploadVideo` reads. -/
structure UploadedFile where
  originalname : String
  size : Nat
  buffer : List Nat
deriving DecidableEq, Repr

/-- `VideoService.maxFileSize` (video.service.ts line 49): 500MB. -/
def maxFileSize : Nat := 500 * 1024 * 1024

/-- `VideoService.allowedExtensions` (video.service.ts lines 50-56). -/
def allowedExtensions : List String :=
  [".mp4", ".avi", ".mov", ".mkv", ".webm"]

/-- JavaScript `lastIndexOf` on a character list: `-1` when absent. -/
def jsLastIndexOf (c : Char) (cs : List Char) : Int :=
  match cs.reverse.findIdx? (fun x => x == c) with
  | some i => (cs.length : Int) - 1 - (i : Int)
  | none => -1

/-- `file.originalname.toLowerCase().substring(file.originalname.lastIndexOf('.'))`
(video.service.ts lines 79-81).  `substring` clamps a negative index to `0`,
so a dotless name yields the whole lowercased name. -/
def fileExtensionOf (name : String) : String :=
  String.mk ((name.data.map Char.toLower).drop (jsLastIndexOf '.' name.data).toNat)

/-- Character class kept by the sanitiser regex `[^a-zA-Z0-9.-]`
(video.service.ts line 94 and VideoUploadForm.tsx line 124). -/
def jsSafeChar (c : Char) : Bool :=
  (decide ('a' ≤ c) && decide (c ≤ 'z'))
    || (decide ('A' ≤ c) && decide (c ≤ 'Z'))
    || (decide ('0' ≤ c) && decide (c ≤ '9'))
    || c == '.' || c == '-'

/-- `name.replace(/[^a-zA-Z0-9.-]/g, '_')`: every character outside the class
is replaced by an underscore. -/
def sanitizeFilename (s : String) : String :=
  String.mk (s.data.map (fun c => if jsSafeChar c then c else '_'))

/-- Character class `[A-Za-z0-9._-]` as written in the spec (section 4.4):
identical to `jsSafeChar` except that it also lists the underscore. -/
def specSafeChar (c : Char) : Bool :=
  (decide ('a' ≤ c) && decide (c ≤ 'z'))
    || (decide ('A' ≤ c) && decide (c ≤ 'Z'))
    || (decide ('0' ≤ c) && decide (c ≤ '9'))
    || c == '.' || c == '-' || c == '_'

/-- Sanitisation as the spec words it: replace every character outside
`[A-Za-z0-9._-]` with an underscore. -/
def specSanitize (s : String) : String :=
  String.mk (s.data.map (fun c => if specSafeChar c then c else '_'))

/-- The stored filename `` `${timestamp}_${safeFilename}` `` (video.service.ts
line 95, VideoUploadForm.tsx line 125). -/
def mkStoredFilename (timestamp : Nat) (original : String) : String :=
  String.mk (natToDec timestamp ++ '_' :: (sanitizeFilename original).data)

/-- A filesystem effect performed by `uploadVideo`. -/
inductive FsWrite where
  | mkdirData
  | writeFile (path : String) (bytes : List Nat)
deriving DecidableEq, Repr

/-- Result record of `uploadVideo` (the `UploadResult` interface); the
human-readable size formatting (floating-point `Math.log`) is abstracted
away, claims only inspect presence of the error message. -/
structure UploadResult where
  success : Bool
  filename : Option String
  error : Option String
  size : Option Nat
deriving DecidableEq, Repr

/-- `VideoService.uploadVideo` (video.service.ts lines 58-139): validates the
size cap, then the extension allowlist, and only then touches the
filesystem; the returned list records every filesystem write performed.
`Date.now()` is the `timestamp` argument and `existsSync(this.dataPath)` the
`dataDirExists` argument. -/
def uploadVideo (file : UploadedFile) (timestamp : Nat) (dataDirExists : Bool) :
    UploadResult × List FsWrite :=
  if maxFileSize < file.size then
    ({ success := false, filename := none
       error := some "File size exceeds maximum limit", size := none }, [])
  else if (allowedExtensions.contains (fileExtensionOf file.originalname)) = false then
    ({ success := false, filename := none
       error := some "Invalid file type", size := none }, [])
  else
    let filename := mkStoredFilename timestamp file.originalname
    ({ success := true, filename := some filename
       error := none, size := some file.size },
      (if dataDirExists then [] else [FsWrite.mkdirData])
        ++ [FsWrite.writeFile (dataPath ++ "/" ++ filename) file.buffer])

/-- Outcome of finalising a chunked upload session. -/
inductive FinalizeOutcome where
  | published (filename : String) (size : Nat)
  | incompleteUpload (missing : List Nat)
  | sizeMismatch (declared actual : Nat)
deriving DecidableEq, Repr

/-- Modelled from the spec: the repository's `finalizeChunkedUpload`
(UploadFinalizer, spec sections 4.5 and 8) is not present under `src/`; only
its controller caller `finalizeUpload` is.  Per the spec it verifies that all
`totalChunks` chunk files are present, failing with `IncompleteUpload`
(reporting the missing ordinals) otherwise; concatenates the chunks in strict
ordinal order `1..totalChunks`; fails with `SizeMismatch` when the
reassembled length disagrees with the declared size; and only on success
publishes the artifact under the final name.  `chunkStore i` is the persisted
chunk for ordinal `i`, `none` when missing. -/
def finalizeChunkedUpload (chunkStore : Nat → Option (List Nat))
    (sessionName : String) (totalChunks declaredFileSize : Nat) :
    FinalizeOutcome :=
  let ordinals := List.range' 1 totalChunks
  let missing := ordinals.filter (fun i => (chunkStore i).isNone)
  if missing.isEmpty then
    let artifact := (ordinals.map (fun i => (chunkStore i).getD [])).flatten
    if artifact.length = declaredFileSize then
      FinalizeOutcome.published sessionName artifact.length
    else FinalizeOutcome.sizeMismatch declaredFileSize artifact.length
  else FinalizeOutcome.incompleteUpload missing

/-- The artifact name a finalize outcome makes visible, if any. -/
def publishedName : FinalizeOutcome → Option String
  | FinalizeOutcome.published n _ => some n
  | _ => none

/-- Recognises the `IncompleteUpload` failure. -/
def isIncompleteUpload : FinalizeOutcome → Bool
  | FinalizeOutcome.incompleteUpload _ => true
  | _ => false

/-! ### Helper lemmas about the decimal printer and parser -/

theorem natToDecAux_append (fuel : Nat) :
    ∀ (n : Nat) (acc : List Char),
      natToDecAux fuel n acc = natToDecAux fuel n [] ++ acc := by
  induction fuel with
  | zero => intro n acc; rfl
  | succ f ih =>
    intro n acc
    by_cases h : n < 10
    · simp [natToDecAux, h]
    · simp only [natToDecAux, if_neg h]
      rw [ih (n / 10) (digitChar (n % 10) :: acc),
        ih (n / 10) [digitChar (n % 10)]]
      simp

theorem natToDecAux_spec (n : Nat) :
    ∀ (fuel : Nat) (acc : List Char), n < fuel →
      natToDecAux fuel n acc = natToDec n ++ acc := by
  induction n using Nat.strong_induction_on with
  | _ n ih =>
    intro fuel acc hf
    match fuel, hf with
    | f + 1, _ =>
      by_cases h : n < 10
      · simp [natToDecAux, natToDec, h]
      · have h10 : n / 10 < n := Nat.div_lt_self (by omega) (by omega)
        have hrec : n / 10 < f := by omega
        simp only [natToDecAux, if_neg h]
        rw [ih (n / 10) h10 f (digitChar (n % 10) :: acc) hrec]
        conv_rhs => rw [natToDec]
        simp only [natToDecAux, if_neg h]
        rw [ih (n / 10) h10 n [digitChar (n % 10)] h10]
        simp

theorem natToDec_small {n : Nat} (h : n < 10) : natToDec n = [digitChar n] := by
  simp [natToDec, natToDecAux, h]

theorem natToDec_step {n : Nat} (h : ¬ n < 10) :
    natToDec n = natToDec (n / 10) ++ [digitChar (n % 10)] := by
  have h10 : n / 10 < n := Nat.div_lt_self (by omega) (by omega)
  conv_lhs => rw [natToDec]
  simp only [natToDecAux, if_neg h]
  exact natToDecAux_spec (n / 10) n [digitChar (n % 10)] h10

theorem digitChar_isDigit : ∀ d, d < 10 → (digitChar d).isDigit = true := by
  decide

theorem digitChar_toNat : ∀ d, d < 10 → (digitChar d).toNat = 48 + d := by
  decide

theorem natToDec_all_digits (n : Nat) :
    ∀ c ∈ natToDec n, c.isDigit = true := by
  induction n using Nat.strong_induction_on with
  | _ n ih =>
    by_cases h : n < 10
    · rw [natToDec_small h]
      intro c hc
      rw [List.mem_singleton] at hc
      subst hc
      exact digitChar_isDigit n h
    · rw [natToDec_step h]
      intro c hc
      rcases List.mem_append.mp hc with h1 | h2
      · exact ih (n / 10) (Nat.div_lt_self (by omega) (by omega)) c h1
      · rw [List.mem_singleton] at h2
        subst h2
        exact digitChar_isDigit _ (Nat.mod_lt _ (by omega))

theorem natToDec_ne_nil (n : Nat) : natToDec n ≠ [] := by
  by_cases h : n < 10
  · rw [natToDec_small h]; simp
  · rw [natToDec_step h]; simp

theorem natToDec_foldl (n : Nat) :
    (natToDec n).foldl (fun a c => a * 10 + (c.toNat - 48)) 0 = n := by
  induction n using Nat.strong_induction_on with
  | _ n ih =>
    by_cases h : n < 10
    · rw [natToDec_small h]
      simp [digitChar_toNat n h]
    · rw [natToDec_step h, List.foldl_append]
      rw [ih (n / 10) (Nat.div_lt_self (by omega) (by omega))]
      simp only [List.foldl_cons, List.foldl_nil,
        digitChar_toNat (n % 10) (Nat.mod_lt _ (by omega))]
      omega

theorem takeWhile_of_all_digits (l : List Char)
    (h : ∀ c ∈ l, c.isDigit = true) : l.takeWhile Char.isDigit = l := by
  induction l with
  | nil => rfl
  | cons c cs ih =>
    rw [List.takeWhile_cons, h c (List.mem_cons_self c cs)]
    simp [ih (fun x hx => h x (List.mem_cons_of_mem _ hx))]

theorem parseDigitList_natToDec (n : Nat) :
    parseDigitList (natToDec n) = some n := by
  unfold parseDigitList
  rw [takeWhile_of_all_digits _ (natToDec_all_digits n)]
  have hne : (natToDec n).isEmpty = false := by
    cases hn : natToDec n with
    | nil => exact absurd hn (natToDec_ne_nil n)
    | cons c cs => rfl
  simp [hne, natToDec_foldl n]

theorem space_not_digit {c : Char} (h : isJsSpace c = true) :
    c.isDigit = false := by
  unfold isJsSpace at h
  simp only [Bool.or_eq_true, beq_iff_eq] at h
  rcases h with ((((h | h) | h) | h) | h) | h <;> subst h <;> decide

theorem digit_not_space {c : Char} (h : c.isDigit = true) :
    isJsSpace c = false := by
  cases hs : isJsSpace c with
  | false => rfl
  | true => rw [space_not_digit hs] at h; exact absurd h (by simp)

theorem digit_ne_dash {c : Char} (h : c.isDigit = true) : c ≠ '-' := by
  intro he
  rw [he] at h
  exact absurd h (by decide)

theorem digit_ne_plus {c : Char} (h : c.isDigit = true) : c ≠ '+' := by
  intro he
  rw [he] at h
  exact absurd h (by decide)

theorem parseIntJS_natToDec (n : Nat) :
    parseIntJS (natToDec n) = some (n : Int) := by
  obtain ⟨c, cs, hcons⟩ : ∃ c cs, natToDec n = c :: cs := by
    cases hn : natToDec n with
    | nil => exact absurd hn (natToDec_ne_nil n)
    | cons c cs => exact ⟨c, cs, rfl⟩
  have hdig : c.isDigit = true :=
    natToDec_all_digits n c (by rw [hcons]; exact List.mem_cons_self c cs)
  unfold parseIntJS
  rw [hcons, List.dropWhile_cons, digit_not_space hdig]
  simp only [Bool.false_eq_true, if_false]
  rw [if_neg (digit_ne_dash hdig), if_neg (digit_ne_plus hdig), ← hcons,
    parseDigitList_natToDec n]
  rfl

/-! ### Helper lemmas about range-header splitting -/

theorem natToDec_no_dash (n : Nat) : ∀ c ∈ natToDec n, c ≠ '-' :=
  fun c hc => digit_ne_dash (natToDec_all_digits n c hc)

theorem splitChar_no_sep (sep : Char) (l : List Char)
    (h : ∀ c ∈ l, c ≠ sep) : splitChar sep l = [l] := by
  induction l with
  | nil => rfl
  | cons c cs ih =>
    have hc : c ≠ sep := h c (List.mem_cons_self c cs)
    simp only [splitChar, if_neg hc]
    rw [ih (fun x hx => h x (List.mem_cons_of_mem _ hx))]

theorem splitChar_append (sep : Char) (xs ys : List Char)
    (h : ∀ c ∈ xs, c ≠ sep) :
    splitChar sep (xs ++ sep :: ys) = xs :: splitChar sep ys := by
  induction xs with
  | nil => simp [splitChar]
  | cons x xs ih =>
    have hx : x ≠ sep := h x (List.mem_cons_self x xs)
    have ih2 := ih (fun c hc => h c (List.mem_cons_of_mem _ hc))
    simp only [List.cons_append, splitChar, if_neg hx, List.append_eq, ih2]

theorem stripBytesEq_of_prefixed (rest : List Char) :
    stripBytesEq (['b', 'y', 't', 'e', 's', '='] ++ rest) = rest := rfl

theorem rangeParts_mkRangeString (s e : Nat) :
    rangeParts (mkRangeString s e) = [natToDec s, natToDec e] := by
  show splitChar '-' (stripBytesEq
      (['b', 'y', 't', 'e', 's', '='] ++ natToDec s ++ '-' :: natToDec e))
    = [natToDec s, natToDec e]
  rw [show stripBytesEq
        (['b', 'y', 't', 'e', 's', '='] ++ natToDec s ++ '-' :: natToDec e)
      = natToDec s ++ '-' :: natToDec e from rfl]
  rw [splitChar_append '-' (natToDec s) (natToDec e) (natToDec_no_dash s),
    splitChar_no_sep '-' (natToDec e) (natToDec_no_dash e)]

theorem rangeEndPart_mkRangeString (s e : Nat) :
    rangeEndPart (mkRangeString s e) = some (natToDec e) := by
  unfold rangeEndPart
  rw [rangeParts_mkRangeString]
  have hne : (natToDec e).isEmpty = false := by
    cases hn : natToDec e with
    | nil => exact absurd hn (natToDec_ne_nil e)
    | cons c cs => rfl
  simp [hne]

theorem getStreamInfo_mkRangeString (fn : String) (fs s e : Nat) :
    getStreamInfo fn fs (some (mkRangeString s e)) =
      { filename := fn
        videoPath := dataPath ++ "/" ++ fn
        fileSize := fs
        isRangeRequest := true
        start := some (s : Int)
        «end» := some (e : Int)
        chunksize := some ((e : Int) - (s : Int) + 1) } := by
  simp only [getStreamInfo, rangeParts_mkRangeString, rangeEndPart_mkRangeString,
    List.headD_cons, parseIntJS_natToDec]
  rfl

theorem jsNumChars_coe (n : Nat) : jsNumChars (some (n : Int)) = natToDec n := by
  simp only [jsNumChars]
  rw [if_neg (by omega : ¬ ((n : Int) < 0))]
  simp

theorem rangeErrorMsg_record (fn : String) (fs s e : Nat) :
    rangeErrorMsg
      { filename := fn
        videoPath := dataPath ++ "/" ++ fn
        fileSize := fs
        isRangeRequest := true
        start := some (s : Int)
        «end» := some (e : Int)
        chunksize := some ((e : Int) - (s : Int) + 1) }
      = rangeNotSatisfiableMsg s e fs := by
  simp only [rangeErrorMsg, rangeNotSatisfiableMsg, jsNumChars_coe]

theorem headerValue_range_contentRange (si : StreamInfo)
    (h : si.isRangeRequest = true) :
    headerValue (setupStreamHeaders si).2 "Content-Range"
      = some (contentRangeValue si) := by
  simp only [setupStreamHeaders, h]
  rfl

theorem headerValue_range_contentLength (si : StreamInfo)
    (h : si.isRangeRequest = true) :
    headerValue (setupStreamHeaders si).2 "Content-Length"
      = some (String.mk (jsNumChars si.chunksize)) := by
  simp only [setupStreamHeaders, h]
  rfl

/-! ### Claim theorems -/

/-- Claim C1: for every `fileSize > 0` and every valid range with
`0 ≤ start ≤ end < fileSize`, the stream plan computed by `getStreamInfo` and
emitted by `setupStreamHeaders` has status 206, `chunksize = end - start + 1`,
a `Content-Range` header equal to `bytes <start>-<end>/<fileSize>`, and a
`Content-Length` header equal to the chunk size. -/
theorem claim_C1_valid_range_plan (fn : String) (fs s e : Nat)
    (_h0 : 0 < fs) (h1 : s ≤ e) (_h2 : e < fs) :
    (setupStreamHeaders (getStreamInfo fn fs (some (mkRangeString s e)))).1 = 206
    ∧ (getStreamInfo fn fs (some (mkRangeString s e))).chunksize
        = some (((e : Nat) : Int) - ((s : Nat) : Int) + 1)
    ∧ headerValue
        (setupStreamHeaders (getStreamInfo fn fs (some (mkRangeString s e)))).2
        "Content-Range"
        = some (String.mk ("bytes ".data ++ natToDec s ++ '-' :: natToDec e
            ++ '/' :: natToDec fs))
    ∧ headerValue
        (setupStreamHeaders (getStreamInfo fn fs (some (mkRangeString s e)))).2
        "Content-Length"
        = some (String.mk (natToDec (e - s + 1))) := by
  rw [getStreamInfo_mkRangeString]
  refine ⟨rfl, rfl, ?_, ?_⟩
  · rw [headerValue_range_contentRange _ rfl]
    simp only [contentRangeValue, jsNumChars_coe]
  · rw [headerValue_range_contentLength _ rfl]
    have hcast : ((e : Int) - (s : Int) + 1) = ((e - s + 1 : Nat) : Int) := by
      omega
    simp only [hcast, jsNumChars_coe]

/-- Witness for C1 at the spec's concrete scenario A: file size 1000,
`Range: bytes=200-499`. -/
theorem claim_C1_witness :
    (0 < 1000 ∧ 200 ≤ 499 ∧ 499 < 1000)
    ∧ ((setupStreamHeaders
          (getStreamInfo "v.mp4" 1000 (some (mkRangeString 200 499)))).1 = 206
      ∧ (getStreamInfo "v.mp4" 1000 (some (mkRangeString 200 499))).chunksize
          = some (((499 : Nat) : Int) - ((200 : Nat) : Int) + 1)
      ∧ headerValue
          (setupStreamHeaders
            (getStreamInfo "v.mp4" 1000 (some (mkRangeString 200 499)))).2
          "Content-Range"
          = some (String.mk ("bytes ".data ++ natToDec 200 ++ '-' :: natToDec 499
              ++ '/' :: natToDec 1000))
      ∧ headerValue
          (setupStreamHeaders
            (getStreamInfo "v.mp4" 1000 (some (mkRangeString 200 499)))).2
          "Content-Length"
          = some (String.mk (natToDec (499 - 200 + 1)))) :=
  ⟨by decide,
    claim_C1_valid_range_plan "v.mp4" 1000 200 499 (by decide) (by decide)
      (by decide)⟩

/-- Claim C2: every parsed range with `start >= fileSize` or `end >= fileSize`
is rejected as unsatisfiable: `validateRangeRequest` returns invalid with a
message carrying the requested bounds and the file size, and `streamVideo`
answers with a single 416 JSON response — no stream headers and no body bytes
are emitted, whatever the underlying stream would have produced. -/
theorem claim_C2_unsatisfiable_range (fn : String) (fs s e : Nat)
    (h : fs ≤ s ∨ fs ≤ e) :
    validateRangeRequest (getStreamInfo fn fs (some (mkRangeString s e)))
      = { valid := false, error := some (rangeNotSatisfiableMsg s e fs) }
    ∧ ∀ (delivered : List (List Nat)) (term : StreamTermination),
        streamVideo fn (some fs) (some (mkRangeString s e)) delivered term
          = [ResAction.json 416 (rangeNotSatisfiableMsg s e fs)] := by
  have hval : validateRangeRequest
      (getStreamInfo fn fs (some (mkRangeString s e)))
      = { valid := false, error := some (rangeNotSatisfiableMsg s e fs) } := by
    rw [getStreamInfo_mkRangeString]
    rcases h with h | h
    · have h' : (fs : Int) ≤ (s : Int) := by exact_mod_cast h
      simp [validateRangeRequest, jsGeNat, jsGt, h', rangeErrorMsg,
        rangeNotSatisfiableMsg, jsNumChars_coe]
    · have h' : (fs : Int) ≤ (e : Int) := by exact_mod_cast h
      simp [validateRangeRequest, jsGeNat, jsGt, h', rangeErrorMsg,
        rangeNotSatisfiableMsg, jsNumChars_coe]
  refine ⟨hval, ?_⟩
  intro delivered term
  simp [streamVideo, hval]

/-- Witness for C2 at the spec's concrete scenario B: file size 1000,
`Range: bytes=900-1500`. -/
theorem claim_C2_witness :
    (1000 ≤ 900 ∨ 1000 ≤ 1500)
    ∧ (validateRangeRequest
        (getStreamInfo "v.mp4" 1000 (some (mkRangeString 900 1500)))
        = { valid := false, error := some (rangeNotSatisfiableMsg 900 1500 1000) }
      ∧ ∀ (delivered : List (List Nat)) (term : StreamTermination),
          streamVideo "v.mp4" (some 1000) (some (mkRangeString 900 1500))
            delivered term
            = [ResAction.json 416 (rangeNotSatisfiableMsg 900 1500 1000)]) :=
  ⟨by decide,
    claim_C2_unsatisfiable_range "v.mp4" 1000 900 1500 (by decide)⟩

/-- Claim C4: a request without a range header gets the full-file plan:
status 200, `isRangeRequest = false`, `start = 0`, `end = fileSize - 1`,
`chunksize = fileSize`, headers `Content-Length = fileSize`,
`Content-Type: video/mp4`, `Accept-Ranges: bytes`, `Cache-Control: no-cache`,
and no `Content-Range` header. -/
theorem claim_C4_no_range_full_plan (fn : String) (fs : Nat) :
    (getStreamInfo fn fs none).isRangeRequest = false
    ∧ (getStreamInfo fn fs none).start = some 0
    ∧ (getStreamInfo fn fs none).«end» = some ((fs : Int) - 1)
    ∧ (getStreamInfo fn fs none).chunksize = some ((fs : Int))
    ∧ (setupStreamHeaders (getStreamInfo fn fs none)).1 = 200
    ∧ (setupStreamHeaders (getStreamInfo fn fs none)).2 =
        [("Content-Length", String.mk (natToDec fs)),
         ("Content-Type", "video/mp4"),
         ("Accept-Ranges", "bytes"),
         ("Cache-Control", "no-cache")]
    ∧ headerValue (setupStreamHeaders (getStreamInfo fn fs none)).2
        "Content-Range" = none :=
  ⟨rfl, rfl, rfl, rfl, rfl, rfl, rfl⟩

/-- Witness for C4 at a concrete file size. -/
theorem claim_C4_witness :
    (setupStreamHeaders (getStreamInfo "v.mp4" 1000 none)).1 = 200
    ∧ headerValue (setupStreamHeaders (getStreamInfo "v.mp4" 1000 none)).2
        "Content-Range" = none :=
  ⟨(claim_C4_no_range_full_plan "v.mp4" 1000).2.2.2.2.1,
    (claim_C4_no_range_full_plan "v.mp4" 1000).2.2.2.2.2.2⟩

/-- Claim C9: invariant of `getStreamInfo` — for every filename, file size and
range argument the returned record satisfies
`chunksize = end - start + 1` (in JavaScript arithmetic, `NaN` propagating),
and when the range omits an end or is absent, `end = fileSize - 1`. -/
theorem claim_C9_getStreamInfo_invariant (fn : String) (fs : Nat)
    (range : Option String) :
    (getStreamInfo fn fs range).chunksize
      = jsAdd (jsSub (getStreamInfo fn fs range).«end»
          (getStreamInfo fn fs range).start) (some 1)
    ∧ (range = none → (getStreamInfo fn fs range).«end» = some ((fs : Int) - 1))
    ∧ (∀ r, range = some r → rangeEndPart r = none →
        (getStreamInfo fn fs range).«end» = some ((fs : Int) - 1)) := by
  refine ⟨?_, ?_, ?_⟩
  · cases range with
    | none =>
      simp only [getStreamInfo, jsAdd, jsSub]
      congr 1
      omega
    | some r => rfl
  · intro h
    subst h
    rfl
  · intro r h hend
    subst h
    simp [getStreamInfo, hend]

/-- Witness for C9: the absent-range case and the `bytes=2-` omitted-end case
at a concrete file size. -/
theorem claim_C9_witness :
    (getStreamInfo "v.mp4" 5 none).chunksize
      = jsAdd (jsSub (getStreamInfo "v.mp4" 5 none).«end»
          (getStreamInfo "v.mp4" 5 none).start) (some 1)
    ∧ (getStreamInfo "v.mp4" 5 none).«end» = some ((5 : Nat) - 1 : Int)
    ∧ (getStreamInfo "v.mp4" 5 (some "bytes=2-")).«end»
        = some ((5 : Nat) - 1 : Int) :=
  ⟨(claim_C9_getStreamInfo_invariant "v.mp4" 5 none).1,
    (claim_C9_getStreamInfo_invariant "v.mp4" 5 none).2.1 rfl,
    (claim_C9_getStreamInfo_invariant "v.mp4" 5 (some "bytes=2-")).2.2
      "bytes=2-" rfl (by decide)⟩

theorem countWriteHead_cons_writeHead (st : Nat) (hs : List (String × String))
    (rest : List ResAction) :
    countWriteHead (ResAction.writeHead st hs :: rest)
      = countWriteHead rest + 1 := by
  simp [countWriteHead, List.filter_cons, isWriteHead]

theorem countWriteHead_append (a b : List ResAction) :
    countWriteHead (a ++ b) = countWriteHead a + countWriteHead b := by
  simp [countWriteHead, List.filter_append]

theorem countWriteHead_bodies (l : List (List Nat)) :
    countWriteHead (l.map ResAction.body) = 0 := by
  induction l with
  | nil => rfl
  | cons x xs ih =>
    simp only [List.map_cons, countWriteHead, List.filter_cons] at *
    simp [isWriteHead, ih]

theorem countWriteHead_termTail (term : StreamTermination) :
    countWriteHead
      (match term with
       | StreamTermination.success => []
       | StreamTermination.ioError _ => [onStreamError true]
       | StreamTermination.clientClose => []) = 0 := by
  cases term <;> rfl

theorem streamVideo_valid_trace (fn : String) (fs : Nat) (range : Option String)
    (delivered : List (List Nat)) (term : StreamTermination)
    (hv : (validateRangeRequest (getStreamInfo fn fs range)).valid = true) :
    streamVideo fn (some fs) range delivered term
      = ResAction.writeHead (setupStreamHeaders (getStreamInfo fn fs range)).1
          (setupStreamHeaders (getStreamInfo fn fs range)).2 ::
        (delivered.map ResAction.body ++
          match term with
          | StreamTermination.success => []
          | StreamTermination.ioError _ => [onStreamError true]
          | StreamTermination.clientClose => []) := by
  simp [streamVideo, hv]

/-- Claim C3 fails on the code; this theorem evaluates the code at the two
failing inputs.  For a parsed `start > end` (`bytes=500-200`, file size 1000)
`streamVideo` answers 416 Range Not Satisfiable — not a 400-class
MalformedRange error.  For a non-numeric start (`bytes=abc-100`) the `NaN`
bound makes every comparison in `validateRangeRequest` false, so the code
attempts a stream and emits status 206 — neither a 400-class error nor a
refusal to stream. -/
theorem claim_C3_code_divergence :
    streamVideo "v.mp4" (some 1000) (some (mkRangeString 500 200)) []
        StreamTermination.success
      = [ResAction.json 416 (rangeNotSatisfiableMsg 500 200 1000)]
    ∧ firstStatus (streamVideo "v.mp4" (some 1000) (some "bytes=abc-100") [[5]]
        StreamTermination.success) = some 206 := by
  constructor <;> decide

/-- Claim C5: within one streaming response the status and headers are
written exactly once, as the very first response action — hence never after a
body byte.  The stream error handler answers a 500 JSON error when nothing
(not even headers) has been sent, and once headers are out it only terminates
the connection with `res.end()`: an erroring trace ends in `resEnd`, still
contains exactly one `writeHead`, and never emits another status. -/
theorem claim_C5_headers_once_error_handling (fn : String) (fs : Nat)
    (range : Option String) (delivered : List (List Nat))
    (term : StreamTermination)
    (hv : (validateRangeRequest (getStreamInfo fn fs range)).valid = true) :
    headersOnceFirst (streamVideo fn (some fs) range delivered term)
    ∧ onStreamError false = ResAction.json 500 "Streaming error"
    ∧ onStreamError true = ResAction.resEnd
    ∧ (∀ msg, term = StreamTermination.ioError msg →
        terminatedWithoutNewStatus
          (streamVideo fn (some fs) range delivered term)) := by
  have htr := streamVideo_valid_trace fn fs range delivered term hv
  refine ⟨?_, rfl, rfl, ?_⟩
  · rw [htr]
    refine ⟨?_, rfl, ?_⟩
    · rw [countWriteHead_cons_writeHead, countWriteHead_append,
        countWriteHead_bodies, countWriteHead_termTail]
    · show countWriteHead (delivered.map ResAction.body ++ _) = 0
      rw [countWriteHead_append, countWriteHead_bodies,
        countWriteHead_termTail]
  · intro msg hterm
    subst hterm
    rw [htr]
    constructor
    · rw [show ResAction.writeHead
            (setupStreamHeaders (getStreamInfo fn fs range)).1
            (setupStreamHeaders (getStreamInfo fn fs range)).2 ::
          (delivered.map ResAction.body ++ [onStreamError true])
          = (ResAction.writeHead
              (setupStreamHeaders (getStreamInfo fn fs range)).1
              (setupStreamHeaders (getStreamInfo fn fs range)).2 ::
            delivered.map ResAction.body) ++ [onStreamError true] from by simp]
      rw [List.getLast?_concat]
      rfl
    · intro a ha
      simp only [List.mem_cons, List.mem_append, List.mem_map,
        List.not_mem_nil, or_false] at ha
      rcases ha with rfl | ⟨x, hx, rfl⟩ | rfl <;> rfl

/-- Witness for C5: a full-file stream of two chunks that then hits a read
error. -/
theorem claim_C5_witness :
    (validateRangeRequest (getStreamInfo "v.mp4" 4 none)).valid = true
    ∧ (headersOnceFirst (streamVideo "v.mp4" (some 4) none [[1], [2]]
          (StreamTermination.ioError "boom"))
      ∧ onStreamError false = ResAction.json 500 "Streaming error"
      ∧ onStreamError true = ResAction.resEnd
      ∧ (∀ msg, StreamTermination.ioError "boom" = StreamTermination.ioError msg →
          terminatedWithoutNewStatus (streamVideo "v.mp4" (some 4) none
            [[1], [2]] (StreamTermination.ioError "boom")))) :=
  ⟨by decide,
    claim_C5_headers_once_error_handling "v.mp4" 4 none [[1], [2]]
      (StreamTermination.ioError "boom") (by decide)⟩

theorem streamedBytes_range (fn : String) (file : List Nat) (a b : Nat) :
    streamedBytes file (getStreamInfo fn file.length (some (mkRangeString a b)))
      = readWindow file a b := by
  rw [getStreamInfo_mkRangeString]
  simp [streamedBytes, createVideoStream]

theorem tilesExactly_flatten (file : List Nat) :
    ∀ (ws : List (Nat × Nat)) (s : Nat), tilesExactly file.length s ws = true →
      (ws.map (fun w => readWindow file w.1 w.2)).flatten = file.drop s := by
  intro ws
  induction ws with
  | nil =>
    intro s hs
    simp only [tilesExactly, beq_iff_eq] at hs
    subst hs
    simp [List.drop_length]
  | cons w ws ih =>
    intro s hs
    obtain ⟨a, b⟩ := w
    simp only [tilesExactly, Bool.and_eq_true, beq_iff_eq,
      decide_eq_true_eq] at hs
    obtain ⟨⟨⟨ha, hsb⟩, hb⟩, hrest⟩ := hs
    subst ha
    have hdrop : file.drop (b + 1) = (file.drop a).drop (b + 1 - a) := by
      rw [List.drop_drop]
      congr 1
      omega
    rw [List.map_cons, List.flatten_cons, ih (b + 1) hrest, hdrop]
    exact List.take_append_drop _ _

/-- Claim C6: for every file, the byte windows selected by the per-request
plans of a sequence of range requests that exactly tile `[0, fileSize)`
concatenate, in order, to the original file. -/
theorem claim_C6_tiling_roundtrip (fn : String) (file : List Nat)
    (ws : List (Nat × Nat)) (ht : tilesExactly file.length 0 ws = true) :
    (ws.map (fun w => streamedBytes file
        (getStreamInfo fn file.length (some (mkRangeString w.1 w.2))))).flatten
      = file := by
  have hfg : (fun w : Nat × Nat => streamedBytes file
        (getStreamInfo fn file.length (some (mkRangeString w.1 w.2))))
      = fun w : Nat × Nat => readWindow file w.1 w.2 :=
    funext (fun w => streamedBytes_range fn file w.1 w.2)
  rw [hfg]
  have h0 := tilesExactly_flatten file ws 0 ht
  rwa [List.drop_zero] at h0

/-- Witness for C6: a four-byte file tiled by the two windows
`[0,1]` and `[2,3]`. -/
theorem claim_C6_witness :
    tilesExactly ([10, 20, 30, 40] : List Nat).length 0 [(0, 1), (2, 3)] = true
    ∧ ([(0, 1), (2, 3)].map (fun w => streamedBytes [10, 20, 30, 40]
        (getStreamInfo "v.mp4" ([10, 20, 30, 40] : List Nat).length
          (some (mkRangeString w.1 w.2))))).flatten = [10, 20, 30, 40] :=
  ⟨by decide,
    claim_C6_tiling_roundtrip "v.mp4" [10, 20, 30, 40] [(0, 1), (2, 3)]
      (by decide)⟩

/-- Claim C7: finalization is all-or-nothing — when any chunk ordinal in
`[1, totalChunks]` is missing, finalize fails with `IncompleteUpload` and no
artifact becomes visible under the final name. -/
theorem claim_C7_finalize_all_or_nothing (chunkStore : Nat → Option (List Nat))
    (sessionName : String) (totalChunks declaredFileSize i : Nat)
    (h1 : 1 ≤ i) (h2 : i ≤ totalChunks) (hmiss : chunkStore i = none) :
    isIncompleteUpload
        (finalizeChunkedUpload chunkStore sessionName totalChunks
          declaredFileSize) = true
    ∧ publishedName
        (finalizeChunkedUpload chunkStore sessionName totalChunks
          declaredFileSize) = none := by
  have hin : i ∈ List.range' 1 totalChunks := by
    rw [List.mem_range'_1]
    omega
  have hmem : i ∈ (List.range' 1 totalChunks).filter
      (fun j => (chunkStore j).isNone) := by
    rw [List.mem_filter]
    exact ⟨hin, by simp [hmiss]⟩
  have hempty : ((List.range' 1 totalChunks).filter
      (fun j => (chunkStore j).isNone)).isEmpty = false := by
    cases hl : (List.range' 1 totalChunks).filter
        (fun j => (chunkStore j).isNone) with
    | nil => exact absurd hl (List.ne_nil_of_mem hmem)
    | cons x xs => rfl
  constructor <;>
    simp [finalizeChunkedUpload, hempty, isIncompleteUpload, publishedName]

/-- Witness for C7 at the spec's concrete scenario D: chunks 1, 2 and 4
present, chunk 3 missing, out of 4 total. -/
theorem claim_C7_witness :
    (1 ≤ 3 ∧ 3 ≤ 4
      ∧ (fun j => if j == 3 then none else some ([7] : List Nat)) 3 = none)
    ∧ (isIncompleteUpload
        (finalizeChunkedUpload
          (fun j => if j == 3 then none else some ([7] : List Nat))
          "s.mp4" 4 4) = true
      ∧ publishedName
        (finalizeChunkedUpload
          (fun j => if j == 3 then none else some ([7] : List Nat))
          "s.mp4" 4 4) = none) :=
  ⟨⟨by decide, by decide, by decide⟩,
    claim_C7_finalize_all_or_nothing
      (fun j => if j == 3 then none else some ([7] : List Nat)) "s.mp4" 4 4 3
      (by decide) (by decide) (by decide)⟩

/-- Claim C8: the stored filename is the timestamp joined by an underscore to
the sanitized client name, and the code's replacement of every character
matching `[^a-zA-Z0-9.-]` with an underscore computes exactly the spec's
sanitization (replace every character outside `[A-Za-z0-9._-]` with an
underscore) on every input string: the underscore, the one character in the
spec's class missing from the code's class, is replaced by itself. -/
theorem claim_C8_sanitizer_refinement :
    (∀ s : String, sanitizeFilename s = specSanitize s)
    ∧ ∀ (ts : Nat) (name : String),
        mkStoredFilename ts name
          = String.mk (natToDec ts ++ '_' :: (specSanitize name).data) := by
  have hchar : (fun c => if jsSafeChar c then c else '_')
      = (fun c => if specSafeChar c then c else '_') := by
    funext c
    by_cases h : c = '_'
    · subst h
      decide
    · have h2 : (c == '_') = false := by
        rw [beq_eq_false_iff_ne]
        exact h
      simp only [jsSafeChar, specSafeChar, h2, Bool.or_false]
  have hs : ∀ s : String, sanitizeFilename s = specSanitize s := by
    intro s
    unfold sanitizeFilename specSanitize
    rw [hchar]
  refine ⟨hs, fun ts name => ?_⟩
  unfold mkStoredFilename
  rw [hs name]

/-- Witness for C8 at concrete inputs with spaces, parentheses and an
underscore. -/
theorem claim_C8_witness :
    sanitizeFilename "my video_(1).mp4" = specSanitize "my video_(1).mp4"
    ∧ mkStoredFilename 1712 "a b.mp4"
        = String.mk (natToDec 1712 ++ '_' :: (specSanitize "a b.mp4").data) :=
  ⟨claim_C8_sanitizer_refinement.1 "my video_(1).mp4",
    claim_C8_sanitizer_refinement.2 1712 "a b.mp4"⟩

/-- Claim C10: `uploadVideo` rejects atomically — an input over the 500MB cap
or with an extension outside the allowlist yields `success := false` with an
error message and performs no filesystem write at all. -/
theorem claim_C10_upload_reject_atomic (file : UploadedFile) (ts : Nat)
    (dirExists : Bool)
    (h : maxFileSize < file.size
      ∨ allowedExtensions.contains (fileExtensionOf file.originalname)
          = false) :
    (uploadVideo file ts dirExists).1.success = false
    ∧ (uploadVideo file ts dirExists).1.error.isSome = true
    ∧ (uploadVideo file ts dirExists).2 = [] := by
  by_cases hsize : maxFileSize < file.size
  · simp [uploadVideo, hsize]
  · rcases h with h | hext
    · exact absurd h hsize
    · have hext2 : fileExtensionOf file.originalname ∉ allowedExtensions := by
        simpa using hext
      simp [uploadVideo, hsize, hext2]

/-- Witness for C10: a small file with a `.txt` extension is rejected without
any filesystem write. -/
theorem claim_C10_witness :
    (maxFileSize < 10
      ∨ allowedExtensions.contains (fileExtensionOf "a.txt") = false)
    ∧ ((uploadVideo ⟨"a.txt", 10, [1]⟩ 7 true).1.success = false
      ∧ (uploadVideo ⟨"a.txt", 10, [1]⟩ 7 true).1.error.isSome = true
      ∧ (uploadVideo ⟨"a.txt", 10, [1]⟩ 7 true).2 = []) :=
  ⟨Or.inr (by decide),
    claim_C10_upload_reject_atomic ⟨"a.txt", 10, [1]⟩ 7 true
      (Or.inr (by decide))⟩

end Streaming
